import Mathlib

/-!
Shallow embedding of the calculator accumulator in `src/src/main.rs`
(struct `Calculator` and its methods `new`, `push`, `reset`, `undo`,
`update_display`, `get_display`, `get_history`, plus the history-replay
closure of the `App` component).

Rust `f64` values are modelled as rationals (`ℚ`): every numeric literal the
keypad can produce is a finite decimal, and all arithmetic exercised by the
verified properties (small-integer addition, the `current == 0.0` test) is
exact in double precision, where `f64` and `ℚ` agree.  Non-finite literals
(`inf`, `NaN`) and binary rounding are outside this model.
-/

namespace Calt

/-- Numeric value of a list of decimal digit characters (most significant
first), as accumulated by a decimal parser. -/
def digitsVal (l : List Char) : ℕ :=
  l.foldl (fun a c => 10 * a + (c.toNat - 48)) 0

/-- Parse the mantissa part of a float literal: `digits`, `digits.digits?`
or `.digits`; at least one digit must be present.  Returns the value and
the unconsumed remainder. -/
def parseMantissa (l : List Char) : Option (ℚ × List Char) :=
  let ip := l.takeWhile Char.isDigit
  let r1 := l.dropWhile Char.isDigit
  match r1 with
  | '.' :: r2 =>
    let fp := r2.takeWhile Char.isDigit
    let r3 := r2.dropWhile Char.isDigit
    if ip.isEmpty && fp.isEmpty then none
    else some ((digitsVal ip : ℚ) + (digitsVal fp : ℚ) / ((10 : ℚ) ^ fp.length), r3)
  | _ => if ip.isEmpty then none else some ((digitsVal ip : ℚ), r1)

/-- Parse an exponent suffix (everything after `e`/`E`): optional sign and a
nonempty digit string, which must consume the whole remainder. -/
def parseExpPart (l : List Char) : Option ℤ :=
  match l with
  | '+' :: r => if !r.isEmpty && r.all Char.isDigit then some (digitsVal r) else none
  | '-' :: r => if !r.isEmpty && r.all Char.isDigit then some (-(digitsVal r : ℤ)) else none
  | r => if !r.isEmpty && r.all Char.isDigit then some (digitsVal r) else none

/-- Scale a mantissa by a decimal exponent. -/
def applyExp (m : ℚ) (e : ℤ) : ℚ :=
  if 0 ≤ e then m * (10 : ℚ) ^ e.toNat else m / (10 : ℚ) ^ (-e).toNat

/-- Model of Rust `str::parse::<f64>()` on finite decimal literals:
optional sign, mantissa, optional `e`/`E` exponent.  Malformed text (for
example `"."`, `""`, `"1.2.3"`) yields `none`, matching the `Err` case of
the Rust parse. -/
def parse_f64 (s : String) : Option ℚ :=
  let (sgn, l) :=
    match s.toList with
    | '+' :: r => ((1 : ℚ), r)
    | '-' :: r => ((-1 : ℚ), r)
    | r => ((1 : ℚ), r)
  match parseMantissa l with
  | none => none
  | some (m, rest) =>
    match rest with
    | [] => some (sgn * m)
    | 'e' :: r => (parseExpPart r).map (fun e => sgn * applyExp m e)
    | 'E' :: r => (parseExpPart r).map (fun e => sgn * applyExp m e)
    | _ => none

/-- Model of Rust's `Display` for `f64` on the rational model: integers
print without a decimal point (`10` not `10.0`), other terminating
decimals print exactly; a non-terminating rational (unreachable from
`f64` values) falls back to the raw rational rendering. -/
def fmt_f64 (q : ℚ) : String :=
  if q.den = 1 then toString q.num
  else
    match ( List.range 400).find? (fun k => ((10 : ℚ) ^ (k + 1) * q).den = 1) with
    | some k =>
      let d := k + 1
      let sgn := if q < 0 then "-" else ""
      let m := ((10 : ℚ) ^ d * q).num.natAbs
      let ip := m / 10 ^ d
      let fp := m % 10 ^ d
      let fpStr := toString fp
      let pad := String.mk ( List.replicate (d - fpStr.length) '0')
      sgn ++ toString ip ++ "." ++ pad ++ fpStr
    | none => toString q

/-- The `Calculator` struct of `src/src/main.rs`. -/
structure Calculator where
  display : String
  current_number : String
  operation : Option Char
  previous_number : Option ℚ
  history : List String
deriving DecidableEq

/-- `Calculator::new`. -/
def Calculator.new : Calculator :=
  { display := "0", current_number := "", operation := none,
    previous_number := none, history := [] }

/-- `Calculator::update_display`. -/
def Calculator.update_display (c : Calculator) : Calculator :=
  { c with display := if c.current_number = "" then "0" else c.current_number }

/-- `Calculator::reset`. -/
def Calculator.reset (c : Calculator) : Calculator :=
  { c with display := "0", current_number := "", operation := none,
           previous_number := none }

/-- `Calculator::undo`. -/
def Calculator.undo (c : Calculator) : Calculator :=
  if c.current_number ≠ "" then
    Calculator.update_display { c with current_number := c.current_number.dropRight 1 }
  else c

/-- Outcome of `Calculator::push`: `Ok(())` carrying the mutated receiver,
`Err(msg)` carrying the receiver as left at the early `return`, or a Rust
panic (from `.unwrap()` on a failed parse). -/
inductive PushResult where
  | ok (c : Calculator)
  | error (msg : String) (c : Calculator)
  | panic
deriving DecidableEq

/-- The `match op` arm inside the `"="` branch of `Calculator::push`:
apply the pending operator, with the two early-`return` error cases. -/
def applyOp (op : Char) (prev current : ℚ) : Except String ℚ :=
  match op with
  | '+' => .ok (prev + current)
  | '-' => .ok (prev - current)
  | '*' => .ok (prev * current)
  | '/' =>
    if current = 0 then .error "División por cero"
    else .ok (prev / current)
  | _ => .error "Operación inválida"

/-- `Calculator::push`.  Every non-`return` path falls through to the
final `update_display`; the early `return Err(..)` paths skip it and leave
the receiver as it was; the `.unwrap()` on `current_number.parse()` in the
operator branch panics when the text does not parse. -/
def Calculator.push (c : Calculator) (value : String) : PushResult :=
  if value = "+" ∨ value = "-" ∨ value = "*" ∨ value = "/" then
    if c.current_number ≠ "" then
      match parse_f64 c.current_number with
      | some n =>
        .ok (Calculator.update_display
          { c with operation := some value.front, previous_number := some n,
                   current_number := "" })
      | none => .panic
    else .ok (Calculator.update_display c)
  else if value = "=" then
    match c.previous_number, c.operation with
    | some prev, some op =>
      match parse_f64 c.current_number with
      | some current =>
        match applyOp op prev current with
        | .ok result =>
          .ok (Calculator.update_display
            { c with history := c.history ++
                       [fmt_f64 prev ++ " " ++ toString op ++ " " ++
                        fmt_f64 current ++ " = " ++ fmt_f64 result],
                     current_number := fmt_f64 result,
                     previous_number := none, operation := none })
        | .error msg => .error msg c
      | none => .ok (Calculator.update_display c)
    | _, _ => .ok (Calculator.update_display c)
  else if value = "ac" then .ok (Calculator.update_display c.reset)
  else if value = "<" then .ok (Calculator.update_display c.undo)
  else .ok (Calculator.update_display
    { c with current_number := c.current_number ++ value })

/-- `Calculator::get_display`. -/
def Calculator.get_display (c : Calculator) : String := c.display

/-- `Calculator::get_history`. -/
def Calculator.get_history (c : Calculator) : List String := c.history

/-- Rust `str::split('=')` on the character list: always yields at least
one (possibly empty) segment. -/
def splitEq : List Char → List (List Char)
  | [] => [[]]
  | c :: rest =>
    if c = '=' then [] :: splitEq rest
    else
      match splitEq rest with
      | [] => [[c]]
      | h :: t => (c :: h) :: t

/-- Rust `operation.split("=")` as a list of strings. -/
def rustSplitEq (s : String) : List String :=
  (splitEq s.toList).map String.mk

/-- The history-replay closure of the `App` component:
`operation.split("=").last().unwrap_or("0").trim()` becomes the new
`current_number`, then the display is recomputed. -/
def replay (c : Calculator) (operation : String) : Calculator :=
  Calculator.update_display
    { c with current_number := ((rustSplitEq operation).getLast?.getD "0").trim }

/-- One UI event: `Ok`/`Err` both leave a live calculator (the `App`
handler keeps the same cell either way); a panic aborts. -/
def step1 (c : Calculator) (t : String) : Option Calculator :=
  match c.push t with
  | .ok c' => some c'
  | .error _ c' => some c'
  | .panic => none

/-- Run a sequence of submitted tokens, continuing past `Err` results. -/
def runAll (c : Calculator) : List String → Option Calculator
  | [] => some c
  | t :: ts =>
    match step1 c t with
    | some c' => runAll c' ts
    | none => none

/-- Run a sequence of submitted tokens, requiring every call to return
`Ok`. -/
def runOk (c : Calculator) : List String → Option Calculator
  | [] => some c
  | t :: ts =>
    match c.push t with
    | .ok c' => runOk c' ts
    | _ => none

/-- States reachable from the fresh calculator by `push` calls (successful
or returning `Err`) and by replaying a rendered history entry. -/
inductive Reachable : Calculator → Prop where
  | new : Reachable Calculator.new
  | push_ok {c c' : Calculator} {t : String} :
      Reachable c → c.push t = .ok c' → Reachable c'
  | push_err {c c' : Calculator} {t msg : String} :
      Reachable c → c.push t = .error msg c' → Reachable c'
  | replay_step {c : Calculator} {s : String} :
      Reachable c → s ∈ c.history → Reachable (replay c s)

@[simp] lemma ud_current (c : Calculator) :
    (Calculator.update_display c).current_number = c.current_number := rfl

@[simp] lemma ud_operation (c : Calculator) :
    (Calculator.update_display c).operation = c.operation := rfl

@[simp] lemma ud_previous (c : Calculator) :
    (Calculator.update_display c).previous_number = c.previous_number := rfl

@[simp] lemma ud_history (c : Calculator) :
    (Calculator.update_display c).history = c.history := rfl

@[simp] lemma undo_operation (c : Calculator) : c.undo.operation = c.operation := by
  unfold Calculator.undo; split <;> simp

@[simp] lemma undo_previous (c : Calculator) :
    c.undo.previous_number = c.previous_number := by
  unfold Calculator.undo; split <;> simp

@[simp] lemma undo_history (c : Calculator) : c.undo.history = c.history := by
  unfold Calculator.undo; split <;> simp

/-- `update_display` establishes the display/current-number relation
unconditionally. -/
lemma ud_display (x : Calculator) :
    (Calculator.update_display x).display =
      if (Calculator.update_display x).current_number = "" then "0"
      else (Calculator.update_display x).current_number := by
  simp [Calculator.update_display]

/-- A successful `push` always ends in `update_display`, so its result
satisfies the display/current-number relation. -/
lemma push_ok_display {c c' : Calculator} {t : String} (h : c.push t = .ok c') :
    c'.display = if c'.current_number = "" then "0" else c'.current_number := by
  unfold Calculator.push at h
  repeat' split at h
  all_goals first
    | (cases h; exact ud_display _)
    | cases h

/-- An `Err` result of `push` carries the receiver unchanged (both early
`return Err` paths fire before any field is written). -/
lemma push_err_state {c c' : Calculator} {t msg : String}
    (h : c.push t = .error msg c') : c' = c := by
  unfold Calculator.push at h
  repeat' split at h
  all_goals first
    | (cases h; rfl)
    | cases h

/-- For all reachable states the display is derived from `current_number`
exactly as `update_display` computes it. -/
lemma reachable_display {c : Calculator} (h : Reachable c) :
    c.display = if c.current_number = "" then "0" else c.current_number := by
  induction h with
  | new => rfl
  | push_ok hr hp ih => exact push_ok_display hp
  | push_err hr hp ih => rw [push_err_state hp]; exact ih
  | replay_step hr hs ih => unfold replay; exact ud_display _

/-- A successful `push` keeps `operation` and `previous_number` paired:
each branch either sets both, clears both, or touches neither. -/
lemma push_ok_pair {c c' : Calculator} {t : String}
    (ih : c.operation.isSome = c.previous_number.isSome)
    (h : c.push t = .ok c') : c'.operation.isSome = c'.previous_number.isSome := by
  unfold Calculator.push at h
  repeat' split at h
  all_goals cases h
  all_goals simp_all [Calculator.reset]

/-- `push "ac"` resets everything except the history. -/
lemma push_ac (c : Calculator) :
    c.push "ac" = .ok (Calculator.mk "0" "" none none c.history) := by
  unfold Calculator.push
  rw [if_neg (by decide), if_neg (by decide), if_pos rfl]
  simp [Calculator.reset, Calculator.update_display]

/-- A successful `push` only ever appends to the history. -/
lemma push_ok_history {c c' : Calculator} {t : String}
    (h : c.push t = .ok c') : c.history <+: c'.history := by
  unfold Calculator.push at h
  repeat' split at h
  all_goals cases h
  all_goals simp [Calculator.reset]

/-- Multi-step version of `push_ok_history`: over any token sequence the
history only grows, whether the individual calls return `Ok` or `Err`. -/
lemma runAll_history : ∀ (ts : List String) (c c' : Calculator),
    runAll c ts = some c' → c.history <+: c'.history := by
  intro ts
  induction ts with
  | nil =>
    intro c c' h
    simp [runAll] at h
    rw [h]
  | cons t ts ih =>
    intro c c' h
    rw [runAll] at h
    cases hp : c.push t with
    | ok d =>
      rw [step1, hp] at h
      exact (push_ok_history hp).trans (ih d c' h)
    | error m d =>
      rw [step1, hp] at h
      have hd := push_err_state hp
      subst hd
      exact ih _ c' h
    | panic =>
      rw [step1, hp] at h
      cases h

/-- Rust `split` always yields at least one segment. -/
lemma splitEq_ne_nil (cs : List Char) : splitEq cs ≠ [] := by
  induction cs with
  | nil => simp [splitEq]
  | cons c rest ih =>
    simp only [splitEq]
    split
    · simp
    · split <;> simp

/-- String-level restatement of `splitEq_ne_nil`. -/
lemma rustSplitEq_ne_nil (s : String) : rustSplitEq s ≠ [] := by
  simp [rustSplitEq, splitEq_ne_nil]

/-- C1: from the fresh calculator, submitting `"7"`, `"+"`, `"3"`, `"="`
succeeds at every step and ends with display `"10"` and history
`["7 + 3 = 10"]`. -/
theorem scenario_seven_plus_three :
    runOk Calculator.new ["7", "+", "3", "="] =
      some { display := "10", current_number := "10", operation := none,
             previous_number := none, history := ["7 + 3 = 10"] } := by
  with_unfolding_all decide

/-- C2 counterexample: submitting a binary operator while `current_number`
holds the non-parseable text `"."` (reachable from fresh by submitting
`"."`) hits the `.unwrap()` on the failed parse and panics, so `submit`
does not complete. -/
theorem operator_unparseable_panics_cex :
    Calculator.new.push "." =
      .ok (Calculator.mk "." "." none none []) ∧
    (Calculator.mk "." "." none none []).push "+" = .panic := by
  exact ⟨by decide, by decide⟩

/-- C2 amended: `push` panics exactly when a binary operator token arrives
while `current_number` is non-empty and non-parseable; in every other case
(including `"="` with non-parseable text, a silent no-op) it completes
with `Ok` or `Err`. -/
theorem push_panic_iff (c : Calculator) (t : String) :
    c.push t = .panic ↔
      ((t = "+" ∨ t = "-" ∨ t = "*" ∨ t = "/") ∧ c.current_number ≠ "" ∧
        parse_f64 c.current_number = none) := by
  constructor
  · intro h
    unfold Calculator.push at h
    repeat' split at h
    all_goals cases h
    all_goals simp_all
  · rintro ⟨hop, hne, hp⟩
    unfold Calculator.push
    rw [if_pos hop, if_pos hne, hp]

/-- C3: with a pending division and a right operand parsing to zero,
`push "="` returns the division-by-zero error and leaves the whole state
exactly as it was (the `return Err` fires before any mutation). -/
theorem div_by_zero_atomic (c : Calculator) (p : ℚ)
    (h1 : c.previous_number = some p) (h2 : c.operation = some '/')
    (h3 : parse_f64 c.current_number = some 0) :
    c.push "=" = .error "División por cero" c := by
  unfold Calculator.push
  rw [if_neg (by decide), if_pos rfl, h1, h2, h3]
  rfl

/-- C3 witness: the theorem applied to the concrete state
`⟨"0", "0", some '/', some 5, []⟩`. -/
theorem div_by_zero_atomic_witness :
    Calculator.push (Calculator.mk "0" "0" (some '/') (some 5) []) "=" =
      .error "División por cero" (Calculator.mk "0" "0" (some '/') (some 5) []) :=
  div_by_zero_atomic _ 5 rfl rfl (by with_unfolding_all decide)

/-- C4 counterexample: on the malformed string `"abc"` (no `"="` in it)
replay sets `current_number` to `"abc"`, not to the claimed fallback text
`"0"`: `split` always yields at least one segment, so the
`.unwrap_or("0")` default never fires. -/
theorem replay_malformed_cex :
    (replay Calculator.new "abc").current_number = "abc" ∧
    ¬ (replay Calculator.new "abc").current_number = "0" := by
  exact ⟨by with_unfolding_all decide, by with_unfolding_all decide⟩

/-- C4 amended: replay sets `current_number` to the trimmed text after the
last `"="` of the input (for a string without `"="`, the whole trimmed
string — no input degrades to `"0"`, since the split is never empty and so
the `"0"` default is dead), then recomputes the display and leaves
`operation`, `previous_number` and `history` untouched. -/
theorem replay_spec (c : Calculator) (s : String) :
    rustSplitEq s ≠ [] ∧
    (replay c s).current_number = ((rustSplitEq s).getLastD "").trim ∧
    (replay c s).display =
      (if (replay c s).current_number = "" then "0"
       else (replay c s).current_number) ∧
    (replay c s).operation = c.operation ∧
    (replay c s).previous_number = c.previous_number ∧
    (replay c s).history = c.history := by
  refine ⟨rustSplitEq_ne_nil s, ?_, ?_, ?_, ?_, ?_⟩
  · show (Calculator.update_display _).current_number = _
    rw [ud_current]
    obtain ⟨x, hx⟩ : ∃ x, (rustSplitEq s).getLast? = some x := by
      cases hq : (rustSplitEq s).getLast? with
      | none => exact absurd (List.getLast?_eq_none_iff.mp hq) (rustSplitEq_ne_nil s)
      | some x => exact ⟨x, rfl⟩
    rw [List.getLastD_eq_getLast?, hx]
    rfl
  · unfold replay; exact ud_display _
  · unfold replay; simp
  · unfold replay; simp
  · unfold replay; simp

/-- C5 counterexample: the state after submitting `"0"` to the fresh
calculator is reachable, has `display = "0"` and non-empty
`current_number = "0"`, refuting the claimed biconditional. -/
theorem display_zero_iff_empty_cex :
    ¬ (∀ c : Calculator, Reachable c →
        ((c.display = "0" ↔ c.current_number = "") ∧
         (c.current_number ≠ "" → c.display = c.current_number))) := by
  intro hall
  have hz : Calculator.new.push "0" =
      .ok (Calculator.mk "0" "0" none none []) := by decide
  have hr := Reachable.push_ok Reachable.new hz
  have h := (hall _ hr).1.mp rfl
  exact absurd h (by decide)

/-- C5 amended: for every reachable state, `display = "0"` exactly when
`current_number` is empty or is itself the text `"0"`; when
`current_number` is non-empty, `display` equals it. -/
theorem display_invariant (c : Calculator) (h : Reachable c) :
    (c.display = "0" ↔ (c.current_number = "" ∨ c.current_number = "0")) ∧
    (c.current_number ≠ "" → c.display = c.current_number) := by
  have hd := reachable_display h
  by_cases hc : c.current_number = ""
  · rw [hc] at hd
    simp at hd
    simp [hc, hd]
  · rw [if_neg hc] at hd
    simp [hc, hd]

/-- C5 witness: the amended invariant instantiated at the fresh
calculator. -/
theorem display_invariant_witness :
    (Calculator.new.display = "0" ↔
      (Calculator.new.current_number = "" ∨ Calculator.new.current_number = "0")) ∧
    (Calculator.new.current_number ≠ "" →
      Calculator.new.display = Calculator.new.current_number) :=
  display_invariant Calculator.new Reachable.new

/-- C6: for every reachable state, `operation` is `Some` exactly when
`previous_number` is `Some`: every transition sets both or clears both. -/
theorem pairing_invariant (c : Calculator) (h : Reachable c) :
    c.operation.isSome = c.previous_number.isSome := by
  induction h with
  | new => rfl
  | push_ok hr hp ih => exact push_ok_pair ih hp
  | push_err hr hp ih => rw [push_err_state hp]; exact ih
  | replay_step hr hs ih => unfold replay; simp [ih]

/-- C6 witness: the pairing invariant at the fresh calculator. -/
theorem pairing_invariant_witness :
    Calculator.new.operation.isSome = Calculator.new.previous_number.isSome :=
  pairing_invariant Calculator.new Reachable.new

/-- C7: the history is append-only — across any sequence of `push` calls
the old history is a prefix of the new one (so its length never shrinks
and existing entries are unchanged) — and `push "ac"` clears display,
`current_number`, `operation` and `previous_number` but leaves the
history untouched. -/
theorem history_append_only (c : Calculator) :
    (∀ (ts : List String) (c' : Calculator),
      runAll c ts = some c' → c.history <+: c'.history) ∧
    c.push "ac" =
      .ok (Calculator.mk "0" "" none none c.history) :=
  ⟨fun ts c' h => runAll_history ts c c' h, push_ac c⟩

/-- C7 witness: after the four tokens of Scenario A the empty history has
grown to one entry, with the old history a prefix of the new one. -/
theorem history_append_only_witness :
    Calculator.new.history <+:
      (Calculator.mk "10" "10" none none ["7 + 3 = 10"]).history :=
  (history_append_only Calculator.new).1 ["7", "+", "3", "="]
    (Calculator.mk "10" "10" none none ["7 + 3 = 10"])
    (by with_unfolding_all decide)

/-- C8: clearing is idempotent — `push "ac"` from any state yields the
reset state with that state's history, and a second `push "ac"` from
there yields exactly the same state again. -/
theorem clear_idempotent (c : Calculator) :
    c.push "ac" = .ok (Calculator.mk "0" "" none none c.history) ∧
    (Calculator.mk "0" "" none none c.history).push "ac" =
      .ok (Calculator.mk "0" "" none none c.history) :=
  ⟨push_ac c, push_ac (Calculator.mk "0" "" none none c.history)⟩

/-- C9: in any reachable state with empty `current_number`, submitting a
binary operator token returns `Ok` and changes nothing. -/
theorem operator_ignored_on_empty (c : Calculator) (t : String)
    (h : Reachable c) (hop : t = "+" ∨ t = "-" ∨ t = "*" ∨ t = "/")
    (hcur : c.current_number = "") :
    c.push t = .ok c := by
  have hd := reachable_display h
  rw [hcur] at hd
  simp at hd
  unfold Calculator.push
  rw [if_pos hop, if_neg (by simp [hcur])]
  obtain ⟨d, cn, op, pn, hist⟩ := c
  simp only at hcur hd
  subst hcur
  subst hd
  simp [Calculator.update_display]

/-- C9 witness: on the fresh calculator `push "+"` is a no-op that
returns `Ok` (display stays `"0"`, operation stays `none`). -/
theorem operator_ignored_on_empty_witness :
    Calculator.new.push "+" = .ok Calculator.new :=
  operator_ignored_on_empty Calculator.new "+" Reachable.new (Or.inl rfl) rfl

/-- C10: a binary operator submitted while an operation is already
pending and `current_number` is non-empty and parseable does not evaluate
the pending computation: the parsed `current_number` and the new operator
overwrite `previous_number` and `operation`, `current_number` is cleared,
and the history is unchanged (nothing appended). -/
theorem operator_overwrites_pending (c : Calculator) (t : String)
    (v p : ℚ) (o : Char)
    (hop : t = "+" ∨ t = "-" ∨ t = "*" ∨ t = "/")
    (hpend : c.operation = some o) (hprev : c.previous_number = some p)
    (hcur : c.current_number ≠ "") (hparse : parse_f64 c.current_number = some v) :
    c.push t = .ok (Calculator.mk "0" "" (some t.front) (some v) c.history) := by
  unfold Calculator.push
  rw [if_pos hop, if_pos hcur, hparse]
  simp [Calculator.update_display]

/-- C10 witness: with `7 + ` pending and `"3"` typed, submitting `"*"`
overwrites the pending pair with `3` and `*`, clears the typed number and
appends nothing to the history. -/
theorem operator_overwrites_pending_witness :
    Calculator.push (Calculator.mk "3" "3" (some '+') (some 7) ["h"]) "*" =
      .ok (Calculator.mk "0" "" (some '*') (some 3) ["h"]) :=
  operator_overwrites_pending (Calculator.mk "3" "3" (some '+') (some 7) ["h"])
    "*" 3 7 '+' (Or.inr (Or.inr (Or.inl rfl))) rfl rfl (by decide)
    (by with_unfolding_all decide)

end Calt
